import Mathlib

/-! Verification of the transaction test-config module
(`language/functional_tests/src/config/transaction.rs`).

Strings are modelled as lists of characters (the inputs are ASCII directive
lines, so Rust byte indices coincide with character indices).  External
collaborators are type parameters together with the functions the module
uses on them:

* `TA` models `TransactionArgument` (from `libra_types`), with
  `parse_as_transaction_argument` modelled as `Ctx.parseTA` and the
  `TransactionArgument::Address` constructor as `Ctx.mkAddrArg`;
* `Stage` models `crate::evaluator::Stage`, with its `FromStr` instance
  modelled as `Ctx.parseStage`;
* `AD` models `AccountData` of the global config, with `Ctx.address`
  modelling `AccountData::address`;
* `Addr` models `AccountAddress`.

Rust `Result<T>` with the crate's flat `ErrorKind::Other(msg)` becomes
`Except Err T` where `Err` has one constructor per distinct error message
produced by this module (parametrised by `Stage` because the duplicate-stage
message embeds the stage). -/

deriving instance DecidableEq for Except

namespace Txn

abbrev Str := List Char

/-- `'\x7b'`, the opening curly brace. -/
def lbrace : Char := Char.ofNat 123

/-- `'\x7d'`, the closing curly brace. -/
def rbrace : Char := Char.ofNat 125

/-- Rust `s.split_whitespace().collect::<String>()`: drop every whitespace
character of the line (concatenating the whitespace-separated chunks). -/
def removeWS (s : Str) : Str := s.filter (fun c => !c.isWhitespace)

/-- Rust `str::trim_start`. -/
def trimLeft (s : Str) : Str := s.dropWhile Char.isWhitespace

/-- Rust `str::trim_end`. -/
def trimRight (s : Str) : Str := (s.reverse.dropWhile Char.isWhitespace).reverse

/-- Rust `str::trim`. -/
def trim (s : Str) : Str := trimRight (trimLeft s)

/-- Rust `str::to_ascii_lowercase` (Lean's `Char.toLower` also lowercases
exactly the ASCII range `A`-`Z`). -/
def lowerAscii (s : Str) : Str := s.map Char.toLower

/-- Rust `s.split(',')`: split at every comma, keeping empty pieces. -/
def splitComma : Str → List Str
  | [] => [[]]
  | c :: rest =>
    if c = ',' then [] :: splitComma rest
    else
      match splitComma rest with
      | [] => [[c]]
      | piece :: pieces => (c :: piece) :: pieces

/-- Rust `str::parse::<u64>()`: an optional leading `+` sign, then at least
one ASCII digit, and the value must fit in 64 bits. -/
def parseU64 (s : Str) : Option Nat :=
  let t := match s with
    | '+' :: r => r
    | _ => s
  if t = [] then none
  else if t.all Char.isDigit then
    let v := t.foldl (fun acc c => acc * 10 + (c.toNat - 48)) 0
    if v < 2 ^ 64 then some v else none
  else none

/-- The distinct failure messages produced by the module (each constructor
is one `ErrorKind::Other(..)` message of `transaction.rs`, except
`intParse` and `stageParse`, which model the propagated errors of the
external `u64` and `Stage` parsers). -/
inductive Err (Stage : Type) where
  /-- "txn config entry must start with //!" -/
  | entryStart : Err Stage
  /-- "sender cannot be empty" -/
  | senderEmpty : Err Stage
  /-- "failed to parse (tok) as argument" -/
  | failedParseArgument (tok : Str) : Err Stage
  /-- "failed to parse (s) as transaction config entry" -/
  | failedParseEntry (s : Str) : Err Stage
  /-- `ParseIntError` from `u64::from_str` on the given token -/
  | intParse (tok : Str) : Err Stage
  /-- error of the external `Stage::from_str` on the given token -/
  | stageParse (tok : Str) : Err Stage
  /-- "account (name) does not exist" -/
  | accountNotExist (name : Str) : Err Stage
  /-- "sender already set" -/
  | senderAlreadySet : Err Stage
  /-- "transaction arguments already set" -/
  | argsAlreadySet : Err Stage
  /-- "max gas amount already set" -/
  | maxGasAlreadySet : Err Stage
  /-- "sequence number already set" -/
  | seqNumAlreadySet : Err Stage
  /-- "duplicate stage (s) in black list" -/
  | duplicateStage (s : Stage) : Err Stage
  deriving DecidableEq

/-- `enum Argument`: a partially parsed transaction argument. -/
inductive Argument (TA : Type) where
  | AddressOf (name : Str) : Argument TA
  | SelfContained (arg : TA) : Argument TA
  deriving DecidableEq

/-- `impl FromStr for Argument` (`parseTA` models the external
`parse_as_transaction_argument`). -/
def Argument.fromStr {TA Stage : Type} (parseTA : Str → Option TA) (s : Str) :
    Except (Err Stage) (Argument TA) :=
  match parseTA s with
  | some arg => .ok (.SelfContained arg)
  | none =>
    if [lbrace, lbrace].isPrefixOf s && [rbrace, rbrace].isSuffixOf s then
      .ok (.AddressOf ((s.drop 2).dropLast.dropLast))
    else
      .error (.failedParseArgument s)

/-- `enum Entry`: a raw entry extracted from the input. -/
inductive Entry (TA Stage : Type) where
  | DisableStages (stages : List Stage) : Entry TA Stage
  | Sender (name : Str) : Entry TA Stage
  | Arguments (args : List (Argument TA)) : Entry TA Stage
  | MaxGas (n : Nat) : Entry TA Stage
  | SequenceNumber (n : Nat) : Entry TA Stage
  deriving DecidableEq

/-- `Result` short-circuiting `collect` over a mapped iterator: apply `f` to
each element in order, stopping at the first error. -/
def mapMEx {α β ε : Type} (f : α → Except ε β) : List α → Except ε (List β)
  | [] => .ok []
  | a :: rest =>
    match f a with
    | .ok b =>
      match mapMEx f rest with
      | .ok bs => .ok (b :: bs)
      | .error e => .error e
    | .error e => .error e

/-- The directive marker `//!`. -/
def bang : Str := ['/', '/', '!']

def kwSender : Str := "sender:".data
def kwArgs : Str := "args:".data
def kwNoRun : Str := "no-run:".data
def kwMaxGas : Str := "max-gas:".data
def kwSeqNum : Str := "sequence-number:".data

/-- The split/trim/drop-empty/parse-each pattern shared by `args:` and
`no-run:` in `Entry::from_str`. -/
def parsePieces {α : Type} {Stage : Type} (f : Str → Except (Err Stage) α)
    (s : Str) : Except (Err Stage) (List α) :=
  mapMEx f (((splitComma s).map trim).filter (fun p => !p.isEmpty))

/-- `impl FromStr for Entry`. -/
def Entry.fromStr {TA Stage : Type} (parseTA : Str → Option TA)
    (parseStage : Str → Option Stage) (line : Str) :
    Except (Err Stage) (Entry TA Stage) :=
  let s := removeWS line
  if !bang.isPrefixOf s then .error .entryStart
  else
    let s := trimLeft (s.drop 3)
    if kwSender.isPrefixOf s then
      let r := trimRight (trimLeft (s.drop 7))
      if r.isEmpty then .error .senderEmpty
      else .ok (.Sender (lowerAscii r))
    else if kwArgs.isPrefixOf s then
      match parsePieces (Argument.fromStr parseTA) (s.drop 5) with
      | .ok args => .ok (.Arguments args)
      | .error e => .error e
    else if kwNoRun.isPrefixOf s then
      match parsePieces (fun p =>
          match parseStage p with
          | some st => .ok st
          | none => Except.error (Err.stageParse p)) (s.drop 7) with
      | .ok stages => .ok (.DisableStages stages)
      | .error e => .error e
    else if kwMaxGas.isPrefixOf s then
      match parseU64 (s.drop 8) with
      | some n => .ok (.MaxGas n)
      | none => .error (.intParse (s.drop 8))
    else if kwSeqNum.isPrefixOf s then
      match parseU64 (s.drop 16) with
      | some n => .ok (.SequenceNumber n)
      | none => .error (.intParse (s.drop 16))
    else .error (.failedParseEntry s)

/-- `is_new_transaction`: checks whether a line denotes the start of a new
transaction. -/
def is_new_transaction (line : Str) : Bool :=
  let s := trim line
  if !bang.isPrefixOf s then false
  else trimLeft (s.drop 3) == "new-transaction".data

/-- `Entry::try_parse`. -/
def Entry.tryParse {TA Stage : Type} (parseTA : Str → Option TA)
    (parseStage : Str → Option Stage) (line : Str) :
    Except (Err Stage) (Option (Entry TA Stage)) :=
  if bang.isPrefixOf line then
    match Entry.fromStr parseTA parseStage line with
    | .ok entry => .ok (some entry)
    | .error e => .error e
  else .ok none

/-- The functions the module uses on its external collaborators. -/
structure Ctx (TA Stage AD Addr : Type) where
  parseTA : Str → Option TA
  parseStage : Str → Option Stage
  address : AD → Addr
  mkAddrArg : Addr → TA

/-- The two account registries of `GlobalConfig` (`BTreeMap<String, _>`
modelled as association lists queried with `List.lookup`). -/
structure GlobalConfig (AD : Type) where
  accounts : List (Str × AD)
  genesis_accounts : List (Str × AD)

/-- `struct Config`: the per-transaction option table (`BTreeSet<Stage>`
modelled as a duplicate-free list in insertion order). -/
structure Config (TA Stage : Type) where
  disabled_stages : List Stage
  sender : Str
  args : List TA
  max_gas : Option Nat
  sequence_number : Option Nat
  deriving DecidableEq

/-- The mutable locals of `Config::build` before finalization. -/
structure BuildState (TA Stage : Type) where
  disabled_stages : List Stage
  sender : Option Str
  args : Option (List TA)
  max_gas : Option Nat
  sequence_number : Option Nat
  deriving DecidableEq

def initState {TA Stage : Type} : BuildState TA Stage := ⟨[], none, none, none, none⟩

/-- Resolution of one raw argument inside the `Entry::Arguments` branch of
`Config::build`: an `AddressOf` is looked up in `config.accounts` only. -/
def resolveArg {TA Stage AD Addr : Type} (ctx : Ctx TA Stage AD Addr)
    (accounts : List (Str × AD)) : Argument TA → Except (Err Stage) TA
  | .AddressOf name =>
    match accounts.lookup name with
    | some data => .ok (ctx.mkAddrArg (ctx.address data))
    | none => .error (.accountNotExist name)
  | .SelfContained arg => .ok arg

/-- The `collect::<Result<Vec<_>>>` over `resolveArg`. -/
def resolveArgs {TA Stage AD Addr : Type} (ctx : Ctx TA Stage AD Addr)
    (accounts : List (Str × AD)) (raw : List (Argument TA)) :
    Except (Err Stage) (List TA) :=
  mapMEx (resolveArg ctx accounts) raw

/-- The loop of the `Entry::DisableStages` branch: insert each stage in
order, failing on the first stage already present. -/
def insertStages {Stage : Type} [DecidableEq Stage] :
    List Stage → List Stage → Except (Err Stage) (List Stage)
  | acc, [] => .ok acc
  | acc, s :: rest =>
    if s ∈ acc then .error (.duplicateStage s)
    else insertStages (acc ++ [s]) rest

/-- One iteration of the entry loop of `Config::build`. -/
def processEntry {TA Stage AD Addr : Type} [DecidableEq Stage]
    (ctx : Ctx TA Stage AD Addr) (config : GlobalConfig AD)
    (st : BuildState TA Stage) : Entry TA Stage →
    Except (Err Stage) (BuildState TA Stage)
  | .Sender name =>
    match st.sender with
    | none =>
      if (config.accounts.lookup name).isSome
          || (config.genesis_accounts.lookup name).isSome then
        .ok { st with sender := some name }
      else .error (.accountNotExist name)
    | some _ => .error .senderAlreadySet
  | .Arguments raw =>
    match st.args with
    | none =>
      match resolveArgs ctx config.accounts raw with
      | .ok resolved => .ok { st with args := some resolved }
      | .error e => .error e
    | some _ => .error .argsAlreadySet
  | .DisableStages stages =>
    match insertStages st.disabled_stages stages with
    | .ok d => .ok { st with disabled_stages := d }
    | .error e => .error e
  | .MaxGas n =>
    match st.max_gas with
    | none => .ok { st with max_gas := some n }
    | some _ => .error .maxGasAlreadySet
  | .SequenceNumber n =>
    match st.sequence_number with
    | none => .ok { st with sequence_number := some n }
    | some _ => .error .seqNumAlreadySet

/-- The entry loop of `Config::build`, in supplied order. -/
def runEntries {TA Stage AD Addr : Type} [DecidableEq Stage]
    (ctx : Ctx TA Stage AD Addr) (config : GlobalConfig AD) :
    BuildState TA Stage → List (Entry TA Stage) →
    Except (Err Stage) (BuildState TA Stage)
  | st, [] => .ok st
  | st, e :: rest =>
    match processEntry ctx config st e with
    | .ok st2 => runEntries ctx config st2 rest
    | .error e2 => .error e2

/-- The result construction at the end of `Config::build`. -/
def finalize {TA Stage : Type} (st : BuildState TA Stage) : Config TA Stage :=
  ⟨st.disabled_stages, st.sender.getD "default".data, st.args.getD [],
    st.max_gas, st.sequence_number⟩

/-- `Config::build`. -/
def Config.build {TA Stage AD Addr : Type} [DecidableEq Stage]
    (ctx : Ctx TA Stage AD Addr) (config : GlobalConfig AD)
    (entries : List (Entry TA Stage)) : Except (Err Stage) (Config TA Stage) :=
  match runEntries ctx config initState entries with
  | .ok st => .ok (finalize st)
  | .error e => .error e

/-- `Config::is_stage_disabled`. -/
def Config.is_stage_disabled {TA Stage : Type} [DecidableEq Stage]
    (c : Config TA Stage) (stage : Stage) : Bool :=
  stage ∈ c.disabled_stages

/-- The four single-valued option kinds of `Config::build` (each may be
set at most once; `DisableStages` is not one of them). -/
inductive SVKind where
  | sender : SVKind
  | args : SVKind
  | maxGas : SVKind
  | seqNum : SVKind
  deriving DecidableEq

/-- The single-valued kind of an entry, if any. -/
def Entry.svKind {TA Stage : Type} : Entry TA Stage → Option SVKind
  | .Sender _ => some .sender
  | .Arguments _ => some .args
  | .MaxGas _ => some .maxGas
  | .SequenceNumber _ => some .seqNum
  | .DisableStages _ => none

/-- The "already set" error raised at a second entry of the kind. -/
def alreadySetErr {Stage : Type} : SVKind → Err Stage
  | .sender => .senderAlreadySet
  | .args => .argsAlreadySet
  | .maxGas => .maxGasAlreadySet
  | .seqNum => .seqNumAlreadySet

/-- Whether the option of the given kind has been set in the build state. -/
def kindSet {TA Stage : Type} : SVKind → BuildState TA Stage → Bool
  | .sender, st => st.sender.isSome
  | .args, st => st.args.isSome
  | .maxGas, st => st.max_gas.isSome
  | .seqNum, st => st.sequence_number.isSome

/-! ### String helper lemmas -/

theorem mem_removeWS_not_ws {s : Str} {c : Char} (h : c ∈ removeWS s) :
    c.isWhitespace = false := by
  have h2 := List.mem_filter.mp h
  simpa using h2.2

theorem removeWS_idem (s : Str) : removeWS (removeWS s) = removeWS s := by
  simp [removeWS, List.filter_filter]

theorem dropWhile_eq_self_of_none {p : Char → Bool} {s : Str}
    (h : ∀ c ∈ s, p c = false) : s.dropWhile p = s := by
  cases s with
  | nil => rfl
  | cons a t => simp [List.dropWhile_cons, h a (by simp)]

theorem trimLeft_eq_self {s : Str} (h : ∀ c ∈ s, c.isWhitespace = false) :
    trimLeft s = s :=
  dropWhile_eq_self_of_none h

theorem trimRight_eq_self {s : Str} (h : ∀ c ∈ s, c.isWhitespace = false) :
    trimRight s = s := by
  unfold trimRight
  rw [dropWhile_eq_self_of_none (fun c hc => h c (List.mem_reverse.mp hc)),
    List.reverse_reverse]

theorem trim_eq_self {s : Str} (h : ∀ c ∈ s, c.isWhitespace = false) :
    trim s = s := by
  unfold trim
  rw [trimLeft_eq_self h, trimRight_eq_self h]

theorem isPrefixOf_append_self (p s : Str) : p.isPrefixOf (p ++ s) = true := by
  induction p with
  | nil => simp [List.isPrefixOf]
  | cons a t ih => simp [List.isPrefixOf, ih]

theorem isSuffixOf_append_self (p s : Str) : p.isSuffixOf (s ++ p) = true := by
  simp [List.isSuffixOf, List.reverse_append, isPrefixOf_append_self]

/-! ### C7: is_new_transaction -/

/-- C7: `is_new_transaction` returns true iff the trimmed line starts with
the marker `//!` and the remainder after the marker, with leading whitespace
stripped, equals exactly `new-transaction`; a trimmed line not starting with
the marker yields false; internal whitespace is not collapsed (a space
inside `new-transaction` makes it false). -/
theorem c7_is_new_transaction_spec (s : Str) :
    (is_new_transaction s = true ↔
      bang.isPrefixOf (trim s) = true
        ∧ trimLeft ((trim s).drop 3) = "new-transaction".data)
    ∧ (bang.isPrefixOf (trim s) = false → is_new_transaction s = false)
    ∧ is_new_transaction "//! new- transaction".data = false := by
  refine ⟨?_, fun h => ?_, by decide⟩
  · unfold is_new_transaction
    cases h : bang.isPrefixOf (trim s) <;> simp [h]
  · unfold is_new_transaction
    simp [h]

theorem c7_is_new_transaction_spec_witness :
    is_new_transaction "  //! new-transaction".data = true :=
  (c7_is_new_transaction_spec "  //! new-transaction".data).1.mpr (by decide)

/-! ### C8: whitespace insensitivity of Entry::from_str -/

theorem fromStr_congr {TA Stage : Type} (pTA : Str → Option TA)
    (pS : Str → Option Stage) {s t : Str} (h : removeWS s = removeWS t) :
    Entry.fromStr pTA pS s = Entry.fromStr pTA pS t := by
  unfold Entry.fromStr
  rw [h]

/-- C8: `Entry::from_str` is insensitive to whitespace placement: a line
parses exactly like the line with every whitespace character removed, and
any two lines that agree after whitespace removal parse identically. -/
theorem c8_whitespace_insensitive {TA Stage : Type} (pTA : Str → Option TA)
    (pS : Str → Option Stage) (s t : Str) :
    Entry.fromStr pTA pS (removeWS s) = Entry.fromStr pTA pS s
    ∧ (removeWS s = removeWS t →
        Entry.fromStr pTA pS s = Entry.fromStr pTA pS t) :=
  ⟨fromStr_congr pTA pS (removeWS_idem s), fun h => fromStr_congr pTA pS h⟩

theorem c8_whitespace_insensitive_witness :
    Entry.fromStr (fun _ => (none : Option Nat)) (fun _ => (none : Option Nat))
        "//! max - gas: 4 2".data
      = Entry.fromStr (fun _ => (none : Option Nat)) (fun _ => (none : Option Nat))
        "//!max-gas:42".data :=
  (c8_whitespace_insensitive (fun _ => (none : Option Nat))
    (fun _ => (none : Option Nat)) "//! max - gas: 4 2".data
    "//!max-gas:42".data).2 (by decide)

/-! ### C9: Entry::try_parse -/

/-- C9: `Entry::try_parse` returns `Ok(None)` exactly for lines that do not
begin with the raw (untrimmed) marker `//!` — in particular for any line
with a leading space — and on lines that do begin with the marker it
returns the full parser's result, wrapping success in `Some` and surfacing
the error otherwise. -/
theorem c9_try_parse_gate {TA Stage : Type} (pTA : Str → Option TA)
    (pS : Str → Option Stage) (s : Str) :
    (Entry.tryParse pTA pS s = .ok none ↔ bang.isPrefixOf s = false)
    ∧ (bang.isPrefixOf s = true →
        (∀ e, Entry.fromStr pTA pS s = .ok e →
          Entry.tryParse pTA pS s = .ok (some e))
        ∧ (∀ err, Entry.fromStr pTA pS s = .error err →
          Entry.tryParse pTA pS s = .error err))
    ∧ Entry.tryParse pTA pS (' ' :: s) = .ok none := by
  refine ⟨?_, fun hp => ⟨fun e he => ?_, fun err he => ?_⟩, ?_⟩
  · unfold Entry.tryParse
    cases hp : bang.isPrefixOf s with
    | false => simp [hp]
    | true =>
      simp only [hp, if_true]
      constructor
      · intro hmatch
        exfalso
        cases hfrom : Entry.fromStr pTA pS s <;> simp [hfrom] at hmatch
      · intro hh
        exact absurd hh (by simp)
  · unfold Entry.tryParse
    simp [hp, he]
  · unfold Entry.tryParse
    simp [hp, he]
  · unfold Entry.tryParse
    have : bang.isPrefixOf (' ' :: s) = false := by
      simp [bang, List.isPrefixOf]
    simp [this]

theorem c9_try_parse_gate_witness :
    Entry.tryParse (fun _ => (none : Option Nat)) (fun _ => (none : Option Nat))
      (' ' :: "//! new-transaction".data) = .ok none :=
  (c9_try_parse_gate (fun _ => (none : Option Nat))
    (fun _ => (none : Option Nat)) "//! new-transaction".data).2.2

/-! ### C6: Argument parser priority order -/

/-- C6: `Argument::from_str` tries the external typed-literal parser first
and returns `SelfContained` of its value whenever it succeeds (whatever the
shape of the token); otherwise a token of the shape braces-name-braces
yields `AddressOf` of the interior; otherwise parsing fails with the error
naming the offending token. -/
theorem c6_argument_priority {TA Stage : Type} (pTA : Str → Option TA)
    (s name : Str) :
    (∀ v, pTA s = some v →
      @Argument.fromStr TA Stage pTA s = .ok (.SelfContained v))
    ∧ (pTA s = none → s = [lbrace, lbrace] ++ name ++ [rbrace, rbrace] →
        @Argument.fromStr TA Stage pTA s = .ok (.AddressOf name))
    ∧ (pTA s = none →
        ([lbrace, lbrace].isPrefixOf s && [rbrace, rbrace].isSuffixOf s)
          = false →
        @Argument.fromStr TA Stage pTA s = .error (.failedParseArgument s)) := by
  refine ⟨fun v hv => ?_, fun hn hs => ?_, fun hn hb => ?_⟩
  · unfold Argument.fromStr
    rw [hv]
  · subst hs
    unfold Argument.fromStr
    rw [hn]
    have h1 : [lbrace, lbrace].isPrefixOf
        ([lbrace, lbrace] ++ name ++ [rbrace, rbrace]) = true := by
      rw [List.append_assoc]
      exact isPrefixOf_append_self _ _
    have h2 : [rbrace, rbrace].isSuffixOf
        ([lbrace, lbrace] ++ name ++ [rbrace, rbrace]) = true :=
      isSuffixOf_append_self _ _
    have h3 : (([lbrace, lbrace] ++ name ++ [rbrace, rbrace]).drop
        2).dropLast.dropLast = name := by
      have hd : ([lbrace, lbrace] ++ name ++ [rbrace, rbrace]).drop 2
          = name ++ [rbrace, rbrace] := rfl
      rw [hd, show name ++ [rbrace, rbrace] = (name ++ [rbrace]) ++ [rbrace]
        from by simp, List.dropLast_concat, List.dropLast_concat]
    simp [h1, h3]
    exact ⟨lbrace :: lbrace :: name, by simp⟩
  · unfold Argument.fromStr
    rw [hn, hb]
    simp

theorem c6_argument_priority_witness :
    @Argument.fromStr Nat Nat parseU64 "42".data = .ok (.SelfContained 42)
    ∧ @Argument.fromStr Nat Nat parseU64
        ([lbrace, lbrace] ++ "alice".data ++ [rbrace, rbrace])
        = .ok (.AddressOf "alice".data)
    ∧ @Argument.fromStr Nat Nat parseU64 "alice".data
        = .error (.failedParseArgument "alice".data) :=
  ⟨(c6_argument_priority parseU64 "42".data []).1 42 (by decide),
    (c6_argument_priority parseU64
      ([lbrace, lbrace] ++ "alice".data ++ [rbrace, rbrace])
      "alice".data).2.1 (by decide) rfl,
    (c6_argument_priority parseU64 "alice".data []).2.2 (by decide) (by decide)⟩

/-! ### Keyword-dispatch evaluation lemmas for Entry::from_str -/

theorem fromStr_sender_eq {TA Stage : Type} (pTA : Str → Option TA)
    (pS : Str → Option Stage) {s r : Str}
    (h : removeWS s = "//!sender:".data ++ r) :
    Entry.fromStr pTA pS s =
      if r.isEmpty then .error .senderEmpty
      else .ok (.Sender (lowerAscii r)) := by
  have hws : ∀ c ∈ r, c.isWhitespace = false := fun c hc =>
    mem_removeWS_not_ws (h ▸ List.mem_append_right _ hc)
  have h2 : Entry.fromStr pTA pS s =
      if (trimRight (trimLeft r)).isEmpty then .error .senderEmpty
      else .ok (.Sender (lowerAscii (trimRight (trimLeft r)))) := by
    simp only [Entry.fromStr]
    rw [h]
    rw [show ("//!sender:".data ++ r) = bang ++ (kwSender ++ r) from rfl]
    rw [show trimLeft (List.drop 3 (bang ++ (kwSender ++ r))) = kwSender ++ r
      from rfl]
    rw [show List.drop 7 (kwSender ++ r) = r from rfl]
    rw [isPrefixOf_append_self, isPrefixOf_append_self]
    simp
  rw [h2, trimLeft_eq_self hws, trimRight_eq_self hws]

theorem fromStr_args_eq {TA Stage : Type} (pTA : Str → Option TA)
    (pS : Str → Option Stage) {s r : Str}
    (h : removeWS s = "//!args:".data ++ r) :
    Entry.fromStr pTA pS s =
      match parsePieces (Argument.fromStr pTA) r with
      | .ok args => .ok (.Arguments args)
      | .error e => .error e := by
  simp only [Entry.fromStr]
  rw [h]
  rw [show ("//!args:".data ++ r) = bang ++ (kwArgs ++ r) from rfl]
  rw [show trimLeft (List.drop 3 (bang ++ (kwArgs ++ r))) = kwArgs ++ r
    from rfl]
  rw [show kwSender.isPrefixOf (kwArgs ++ r) = false from rfl]
  rw [show List.drop 5 (kwArgs ++ r) = r from rfl]
  rw [isPrefixOf_append_self, isPrefixOf_append_self]
  simp

/-! ### C4: the sender option contract -/

/-- C4: a `sender:` directive whose remainder (after whitespace removal)
is empty fails with the distinct empty-sender error, otherwise it parses to
`Sender` of the remainder lowercased; and in `Config::build`, a `Sender`
entry with the sender not yet set succeeds (recording the name) exactly
when the name is a key of the regular-accounts map or of the
genesis-accounts map, and otherwise fails with the referential error naming
the missing account. -/
theorem c4_sender_contract {TA Stage AD Addr : Type} [DecidableEq Stage]
    (pTA : Str → Option TA) (pS : Str → Option Stage)
    (ctx : Ctx TA Stage AD Addr) (config : GlobalConfig AD)
    (st : BuildState TA Stage) (s r name : Str) :
    (removeWS s = "//!sender:".data ++ r →
      Entry.fromStr pTA pS s =
        if r.isEmpty then .error .senderEmpty
        else .ok (.Sender (lowerAscii r)))
    ∧ (st.sender = none →
        processEntry ctx config st (.Sender name) =
          if (config.accounts.lookup name).isSome
              || (config.genesis_accounts.lookup name).isSome then
            .ok { st with sender := some name }
          else .error (.accountNotExist name)) := by
  refine ⟨fun h => fromStr_sender_eq pTA pS h, fun hs => ?_⟩
  rcases st with ⟨d, sn, ar, mg, sq⟩
  simp only at hs
  subst hs
  rfl

theorem c4_sender_contract_witness :
    Entry.fromStr (fun _ => (none : Option Nat)) (fun _ => (none : Option Nat))
        "//! sender: ALICE".data = .ok (.Sender "alice".data)
    ∧ Entry.fromStr (fun _ => (none : Option Nat))
        (fun _ => (none : Option Nat)) "//! sender:  ".data
        = .error .senderEmpty
    ∧ processEntry (Ctx.mk parseU64 parseU64 id id)
        (GlobalConfig.mk [] [("alice".data, 7)]) initState
        (.Sender "alice".data)
        = .ok { initState with sender := some "alice".data }
    ∧ processEntry (Ctx.mk parseU64 parseU64 id id)
        (GlobalConfig.mk [] []) initState (.Sender "bob".data)
        = .error (.accountNotExist "bob".data) := by
  refine ⟨?_, ?_, ?_, ?_⟩
  · rw [(c4_sender_contract (fun _ => (none : Option Nat))
      (fun _ => (none : Option Nat)) (Ctx.mk parseU64 parseU64 id id)
      (GlobalConfig.mk [] []) initState "//! sender: ALICE".data
      "ALICE".data "".data).1 (by decide)]
    decide
  · rw [(c4_sender_contract (fun _ => (none : Option Nat))
      (fun _ => (none : Option Nat)) (Ctx.mk parseU64 parseU64 id id)
      (GlobalConfig.mk [] []) initState "//! sender:  ".data
      "".data "".data).1 (by decide)]
    decide
  · rw [(c4_sender_contract parseU64 parseU64 (Ctx.mk parseU64 parseU64 id id)
      (GlobalConfig.mk [] [("alice".data, 7)]) initState "".data "".data
      "alice".data).2 rfl]
    decide
  · rw [(c4_sender_contract parseU64 parseU64 (Ctx.mk parseU64 parseU64 id id)
      (GlobalConfig.mk [] []) initState "".data "".data "bob".data).2 rfl]
    decide

/-! ### C10: empty argument list still counts as set -/

theorem parsePieces_all_empty {α Stage : Type} (f : Str → Except (Err Stage) α)
    {r : Str} (h : ∀ p ∈ splitComma r, trim p = []) :
    parsePieces f r = .ok [] := by
  unfold parsePieces
  have hnil : ((splitComma r).map trim).filter (fun p => !p.isEmpty) = [] := by
    rw [List.filter_eq_nil_iff]
    intro a ha
    rcases List.mem_map.mp ha with ⟨p, hp, rfl⟩
    simp [h p hp]
  rw [hnil]
  rfl

/-- C10: an `args:` directive whose remainder has no non-empty
comma-separated piece parses to `Arguments` of the empty list; in
`Config::build` that empty entry still counts as setting the arguments, so
a later `Arguments` entry fails with the arguments-already-set error, and
as the only `Arguments` entry it yields the empty `Config.args`. -/
theorem c10_empty_args {TA Stage AD Addr : Type} [DecidableEq Stage]
    (pTA : Str → Option TA) (pS : Str → Option Stage)
    (ctx : Ctx TA Stage AD Addr) (config : GlobalConfig AD)
    (s r : Str) (raw2 : List (Argument TA)) (rest : List (Entry TA Stage)) :
    (removeWS s = "//!args:".data ++ r →
      (∀ p ∈ splitComma r, trim p = []) →
      Entry.fromStr pTA pS s = .ok (.Arguments []))
    ∧ Config.build ctx config (.Arguments [] :: .Arguments raw2 :: rest)
        = .error .argsAlreadySet
    ∧ Config.build ctx config [.Arguments []]
        = .ok ⟨[], "default".data, [], none, none⟩ := by
  refine ⟨fun h hp => ?_, rfl, rfl⟩
  rw [fromStr_args_eq pTA pS h, parsePieces_all_empty _ hp]

theorem c10_empty_args_witness :
    Entry.fromStr (fun _ => (none : Option Nat)) (fun _ => (none : Option Nat))
        "//! args:".data = .ok (.Arguments [])
    ∧ Config.build (Ctx.mk parseU64 parseU64 id id) (GlobalConfig.mk [] [])
        [.Arguments [], .Arguments [.SelfContained 3]]
        = .error .argsAlreadySet :=
  ⟨(c10_empty_args (fun _ => (none : Option Nat))
      (fun _ => (none : Option Nat)) (Ctx.mk parseU64 parseU64 id id)
      (GlobalConfig.mk [] []) "//! args:".data [] [] []).1 (by decide)
      (by decide),
    (c10_empty_args (fun _ => (none : Option Nat))
      (fun _ => (none : Option Nat)) (Ctx.mk parseU64 parseU64 id id)
      (GlobalConfig.mk [] []) "".data [] [.SelfContained 3] []).2.1⟩

/-! ### C3: duplicate disabled stages -/

theorem insertStages_ok {Stage : Type} [DecidableEq Stage]
    (l : List Stage) : ∀ acc : List Stage, (acc ++ l).Nodup →
    insertStages acc l = .ok (acc ++ l) := by
  induction l with
  | nil => intro acc h; simp [insertStages]
  | cons s t ih =>
    intro acc h
    have h2 : ((acc ++ [s]) ++ t).Nodup := by rwa [← List.append_cons]
    have hs : s ∉ acc := by
      have hN := h
      rw [List.nodup_append] at hN
      intro hmem
      exact hN.2.2 hmem (by simp)
    rw [insertStages, if_neg hs, ih (acc ++ [s]) h2]
    simp

theorem insertStages_dup {Stage : Type} [DecidableEq Stage]
    (l : List Stage) : ∀ acc : List Stage, acc.Nodup →
    ¬ (acc ++ l).Nodup →
    ∃ l1 s l2, l = l1 ++ s :: l2 ∧ (acc ++ l1).Nodup ∧ s ∈ acc ++ l1
      ∧ insertStages acc l = .error (.duplicateStage s) := by
  induction l with
  | nil => intro acc hacc h; exact absurd (by simpa using hacc) h
  | cons s t ih =>
    intro acc hacc h
    by_cases hs : s ∈ acc
    · refine ⟨[], s, t, rfl, ?_, ?_, ?_⟩
      · simpa using hacc
      · simpa using hs
      · rw [insertStages, if_pos hs]
    · have hacc2 : (acc ++ [s]).Nodup := by
        rw [List.nodup_append]
        refine ⟨hacc, List.nodup_singleton s, ?_⟩
        intro a ha hb
        rw [List.mem_singleton] at hb
        exact hs (hb ▸ ha)
      have h2 : ¬ ((acc ++ [s]) ++ t).Nodup := by
        intro hC
        exact h (by rwa [List.append_cons])
      rcases ih (acc ++ [s]) hacc2 h2 with ⟨l1, s2, l2, heq, hnd, hmem, hrun⟩
      refine ⟨s :: l1, s2, l2, by simp [heq], ?_, ?_, ?_⟩
      · rwa [List.append_cons]
      · rwa [List.append_cons]
      · rw [insertStages, if_neg hs, hrun]

/-- C3: processing `DisableStages(list)` inserts each stage of the list in
order into the disabled-stages set; if the combined sequence is
duplicate-free the entry extends the set by the list, and otherwise the
build fails at the first stage already present — whether the earlier
occurrence came from the already-disabled set or from a duplicate earlier
in the same list — with the duplicate-stage error for that stage. -/
theorem c3_disable_stages_duplicates {TA Stage AD Addr : Type}
    [DecidableEq Stage] (ctx : Ctx TA Stage AD Addr)
    (config : GlobalConfig AD) (st : BuildState TA Stage) (l : List Stage)
    (hnd : st.disabled_stages.Nodup) :
    (processEntry ctx config st (.DisableStages l) =
      match insertStages st.disabled_stages l with
      | .ok d => .ok { st with disabled_stages := d }
      | .error e => .error e)
    ∧ ((st.disabled_stages ++ l).Nodup →
        processEntry ctx config st (.DisableStages l)
          = .ok { st with disabled_stages := st.disabled_stages ++ l })
    ∧ (¬ (st.disabled_stages ++ l).Nodup →
        ∃ l1 s l2, l = l1 ++ s :: l2 ∧ (st.disabled_stages ++ l1).Nodup
          ∧ s ∈ st.disabled_stages ++ l1
          ∧ processEntry ctx config st (.DisableStages l)
            = .error (.duplicateStage s)) := by
  refine ⟨rfl, fun h => ?_, fun h => ?_⟩
  · simp only [processEntry]
    rw [insertStages_ok l st.disabled_stages h]
  · rcases insertStages_dup l st.disabled_stages hnd h
      with ⟨l1, s, l2, heq, hnd1, hmem, hrun⟩
    refine ⟨l1, s, l2, heq, hnd1, hmem, ?_⟩
    simp only [processEntry]
    rw [hrun]

theorem c3_disable_stages_duplicates_witness :
    processEntry (Ctx.mk parseU64 parseU64 id id) (GlobalConfig.mk [] [])
      (initState : BuildState Nat Nat) (.DisableStages [1, 2])
      = .ok { (initState : BuildState Nat Nat) with disabled_stages := [1, 2] }
    ∧ ∃ l1 s l2, ([3, 3] : List Nat) = l1 ++ s :: l2
      ∧ ((initState : BuildState Nat Nat).disabled_stages ++ l1).Nodup
      ∧ s ∈ (initState : BuildState Nat Nat).disabled_stages ++ l1
      ∧ processEntry (Ctx.mk parseU64 parseU64 id id) (GlobalConfig.mk [] [])
          (initState : BuildState Nat Nat) (.DisableStages [3, 3])
          = .error (.duplicateStage s) :=
  ⟨(c3_disable_stages_duplicates (Ctx.mk parseU64 parseU64 id id)
      (GlobalConfig.mk [] []) initState [1, 2] (by decide)).2.1 (by decide),
    (c3_disable_stages_duplicates (Ctx.mk parseU64 parseU64 id id)
      (GlobalConfig.mk [] []) initState [3, 3] (by decide)).2.2 (by decide)⟩

/-! ### C1: argument resolution -/

theorem processEntry_args_eq {TA Stage AD Addr : Type} [DecidableEq Stage]
    (ctx : Ctx TA Stage AD Addr) (config : GlobalConfig AD)
    (st : BuildState TA Stage) (raw : List (Argument TA))
    (hargs : st.args = none) :
    processEntry ctx config st (.Arguments raw) =
      match resolveArgs ctx config.accounts raw with
      | .ok r => .ok { st with args := some r }
      | .error e => .error e := by
  rcases st with ⟨d, sn, ar, mg, sq⟩
  simp only at hargs
  subst hargs
  rfl

theorem resolveArgs_ok_iff {TA Stage AD Addr : Type}
    (ctx : Ctx TA Stage AD Addr) (A : List (Str × AD))
    (raw : List (Argument TA)) :
    (∃ res, resolveArgs ctx A raw = .ok res) ↔
      (∀ n, Argument.AddressOf n ∈ raw → (A.lookup n).isSome = true) := by
  induction raw with
  | nil =>
    constructor
    · intro _ n hn
      simp at hn
    · intro _
      exact ⟨[], rfl⟩
  | cons a t ih =>
    constructor
    · rintro ⟨res, hres⟩ n hn
      simp only [resolveArgs, mapMEx] at hres
      cases ha : resolveArg ctx A a with
      | error e1 => rw [ha] at hres; cases hres
      | ok b =>
        rcases List.mem_cons.mp hn with hn | hn
        · rw [← hn] at ha
          simp only [resolveArg] at ha
          cases hl : A.lookup n with
          | none => simp [hl] at ha
          | some d => simp [hl]
        · rw [ha] at hres
          cases ht : mapMEx (resolveArg ctx A) t with
          | error e2 => rw [ht] at hres; cases hres
          | ok bs => exact ih.mp ⟨bs, ht⟩ n hn
    · intro hall
      have ha : ∃ b, resolveArg ctx A a = .ok b := by
        cases a with
        | SelfContained v => exact ⟨v, rfl⟩
        | AddressOf n =>
          have := hall n (by simp)
          cases hl : A.lookup n with
          | none => simp [hl] at this
          | some d =>
            exact ⟨ctx.mkAddrArg (ctx.address d), by simp [resolveArg, hl]⟩
      rcases ha with ⟨b, hb⟩
      rcases ih.mpr (fun n hn => hall n (by simp [hn])) with ⟨res, hres⟩
      refine ⟨b :: res, ?_⟩
      simp only [resolveArgs, mapMEx] at hres ⊢
      rw [hb, hres]

theorem resolveArgs_ok_spec {TA Stage AD Addr : Type}
    (ctx : Ctx TA Stage AD Addr) (A : List (Str × AD)) :
    ∀ (raw : List (Argument TA)) (res : List TA),
    resolveArgs ctx A raw = .ok res →
    res.length = raw.length
      ∧ ∀ (i : Nat) (h1 : i < raw.length) (h2 : i < res.length),
        match raw.get ⟨i, h1⟩ with
        | .AddressOf n => ∃ d, A.lookup n = some d
            ∧ res.get ⟨i, h2⟩ = ctx.mkAddrArg (ctx.address d)
        | .SelfContained v => res.get ⟨i, h2⟩ = v := by
  intro raw
  induction raw with
  | nil =>
    intro res h
    have : res = [] := by
      simp only [resolveArgs, mapMEx] at h
      cases h
      rfl
    subst this
    exact ⟨rfl, fun i h1 => by simp at h1⟩
  | cons a t ih =>
    intro res h
    simp only [resolveArgs, mapMEx] at h
    cases ha : resolveArg ctx A a with
    | error e1 => rw [ha] at h; cases h
    | ok b =>
      rw [ha] at h
      cases ht : mapMEx (resolveArg ctx A) t with
      | error e2 => rw [ht] at h; cases h
      | ok bs =>
        rw [ht] at h
        cases h
        rcases ih bs ht with ⟨hlen, hel⟩
        refine ⟨by simpa using hlen, ?_⟩
        intro i h1 h2
        cases i with
        | zero =>
          cases a with
          | AddressOf n =>
            simp only [resolveArg] at ha
            cases hl : A.lookup n with
            | none => simp [hl] at ha
            | some d =>
              rw [hl] at ha
              cases ha
              exact ⟨d, hl, rfl⟩
          | SelfContained v =>
            simp only [resolveArg] at ha
            cases ha
            rfl
        | succ j =>
          exact hel j (by simpa using h1) (by simpa using h2)

theorem resolveArgs_error_spec {TA Stage AD Addr : Type}
    (ctx : Ctx TA Stage AD Addr) (A : List (Str × AD)) :
    ∀ (raw : List (Argument TA)) (e : Err Stage),
    resolveArgs ctx A raw = .error e →
    ∃ n, e = .accountNotExist n ∧ Argument.AddressOf n ∈ raw
      ∧ A.lookup n = none := by
  intro raw
  induction raw with
  | nil =>
    intro e h
    simp only [resolveArgs, mapMEx] at h
    cases h
  | cons a t ih =>
    intro e h
    simp only [resolveArgs, mapMEx] at h
    cases ha : resolveArg ctx A a with
    | error e1 =>
      rw [ha] at h
      cases h
      cases a with
      | SelfContained v => simp [resolveArg] at ha
      | AddressOf n =>
        simp only [resolveArg] at ha
        cases hl : A.lookup n with
        | some d => simp [hl] at ha
        | none =>
          rw [hl] at ha
          injection ha with ha2
          exact ⟨n, ha2.symm, by simp, hl⟩
    | ok b =>
      rw [ha] at h
      cases ht : mapMEx (resolveArg ctx A) t with
      | ok bs => rw [ht] at h; cases h
      | error e2 =>
        rw [ht] at h
        injection h with h12
        rcases ih e2 ht with ⟨n, he, hmem, hl⟩
        exact ⟨n, h12 ▸ he, by simp [hmem], hl⟩

/-- C1: with the arguments not yet set, an `Arguments(list)` entry is
independent of the genesis-accounts map; it succeeds exactly when every
`AddressOf` name of the list is a key of the regular-accounts map; on
success the recorded list resolves the input element by element in the same
order (`AddressOf(name)` becomes the address argument of that account,
`SelfContained(v)` passes through unchanged); and on failure the build step
fails with the referential error naming an absent account of the list. -/
theorem c1_arguments_resolution {TA Stage AD Addr : Type} [DecidableEq Stage]
    (ctx : Ctx TA Stage AD Addr) (A G G2 : List (Str × AD))
    (st : BuildState TA Stage) (raw : List (Argument TA)) (res : List TA)
    (e : Err Stage) (hargs : st.args = none) :
    (processEntry ctx ⟨A, G⟩ st (.Arguments raw)
      = processEntry ctx ⟨A, G2⟩ st (.Arguments raw))
    ∧ ((∀ n, Argument.AddressOf n ∈ raw → (A.lookup n).isSome = true) ↔
        ∃ r2, processEntry ctx ⟨A, G⟩ st (.Arguments raw)
          = .ok { st with args := some r2 })
    ∧ (resolveArgs ctx A raw = .ok res →
        processEntry ctx ⟨A, G⟩ st (.Arguments raw)
          = .ok { st with args := some res }
        ∧ res.length = raw.length
        ∧ ∀ (i : Nat) (h1 : i < raw.length) (h2 : i < res.length),
          match raw.get ⟨i, h1⟩ with
          | .AddressOf n => ∃ d, A.lookup n = some d
              ∧ res.get ⟨i, h2⟩ = ctx.mkAddrArg (ctx.address d)
          | .SelfContained v => res.get ⟨i, h2⟩ = v)
    ∧ (resolveArgs ctx A raw = .error e →
        processEntry ctx ⟨A, G⟩ st (.Arguments raw) = .error e
        ∧ ∃ n, e = .accountNotExist n ∧ Argument.AddressOf n ∈ raw
            ∧ A.lookup n = none) := by
  have hpe := processEntry_args_eq ctx ⟨A, G⟩ st raw hargs
  have hpe2 := processEntry_args_eq ctx ⟨A, G2⟩ st raw hargs
  refine ⟨by rw [hpe, hpe2], ?_, fun hok => ?_, fun herr => ?_⟩
  · rw [hpe]
    constructor
    · intro hall
      rcases (resolveArgs_ok_iff ctx A raw).mpr hall with ⟨res2, hres⟩
      exact ⟨res2, by rw [hres]⟩
    · rintro ⟨r2, hr2⟩
      cases hres : resolveArgs ctx A raw with
      | error e2 => rw [hres] at hr2; cases hr2
      | ok res2 => exact (resolveArgs_ok_iff ctx A raw).mp ⟨res2, hres⟩
  · rcases resolveArgs_ok_spec ctx A raw res hok with ⟨hlen, hel⟩
    exact ⟨by rw [hpe, hok], hlen, hel⟩
  · rcases resolveArgs_error_spec ctx A raw e herr with ⟨n, he, hmem, hl⟩
    exact ⟨by rw [hpe, herr], n, he, hmem, hl⟩

theorem c1_arguments_resolution_witness :
    processEntry (Ctx.mk parseU64 parseU64 id (fun a => a + 100))
      (GlobalConfig.mk [("alice".data, 7)] [])
      (initState : BuildState Nat Nat)
      (.Arguments [.AddressOf "alice".data, .SelfContained 42])
      = .ok { (initState : BuildState Nat Nat) with args := some [107, 42] }
    ∧ processEntry (Ctx.mk parseU64 parseU64 id (fun a => a + 100))
      (GlobalConfig.mk [] [("bob".data, 7)])
      (initState : BuildState Nat Nat)
      (.Arguments [.AddressOf "bob".data])
      = .error (.accountNotExist "bob".data) := by
  constructor
  · exact ((c1_arguments_resolution (Ctx.mk parseU64 parseU64 id
      (fun a => a + 100)) [("alice".data, 7)] [] []
      (initState : BuildState Nat Nat)
      [.AddressOf "alice".data, .SelfContained 42] [107, 42]
      (.accountNotExist "bob".data) rfl).2.2.1 (by decide)).1
  · exact ((c1_arguments_resolution (Ctx.mk parseU64 parseU64 id
      (fun a => a + 100)) [] [("bob".data, 7)] []
      (initState : BuildState Nat Nat) [.AddressOf "bob".data] []
      (.accountNotExist "bob".data) rfl).2.2.2 (by decide)).1

/-! ### C2: a second single-valued entry fails -/

theorem processEntry_ok_cases {TA Stage AD Addr : Type} [DecidableEq Stage]
    {ctx : Ctx TA Stage AD Addr} {config : GlobalConfig AD}
    {st st2 : BuildState TA Stage} {e : Entry TA Stage}
    (hp : processEntry ctx config st e = .ok st2) :
    (st2.sender = st.sender
      ∨ (e.svKind = some .sender ∧ st.sender = none
          ∧ st2.sender.isSome = true))
    ∧ (st2.args = st.args
      ∨ (e.svKind = some .args ∧ st.args = none ∧ st2.args.isSome = true))
    ∧ (st2.max_gas = st.max_gas
      ∨ (e.svKind = some .maxGas ∧ st.max_gas = none
          ∧ st2.max_gas.isSome = true))
    ∧ (st2.sequence_number = st.sequence_number
      ∨ (e.svKind = some .seqNum ∧ st.sequence_number = none
          ∧ st2.sequence_number.isSome = true)) := by
  cases e with
  | DisableStages stages =>
    simp only [processEntry] at hp
    cases hi : insertStages st.disabled_stages stages with
    | ok d =>
      rw [hi] at hp
      cases hp
      exact ⟨Or.inl rfl, Or.inl rfl, Or.inl rfl, Or.inl rfl⟩
    | error e2 => rw [hi] at hp; cases hp
  | Sender name =>
    simp only [processEntry] at hp
    cases hs : st.sender with
    | some x => rw [hs] at hp; cases hp
    | none =>
      rw [hs] at hp
      by_cases hc : ((config.accounts.lookup name).isSome
          || (config.genesis_accounts.lookup name).isSome) = true
      · rw [if_pos hc] at hp
        cases hp
        exact ⟨Or.inr ⟨rfl, rfl, by simp⟩, Or.inl rfl, Or.inl rfl, Or.inl rfl⟩
      · rw [if_neg hc] at hp
        cases hp
  | Arguments raw =>
    simp only [processEntry] at hp
    cases ha : st.args with
    | some x => rw [ha] at hp; cases hp
    | none =>
      rw [ha] at hp
      cases hr : resolveArgs ctx config.accounts raw with
      | ok r =>
        rw [hr] at hp
        cases hp
        exact ⟨Or.inl rfl, Or.inr ⟨rfl, rfl, by simp⟩, Or.inl rfl, Or.inl rfl⟩
      | error e2 => rw [hr] at hp; cases hp
  | MaxGas n =>
    simp only [processEntry] at hp
    cases hm : st.max_gas with
    | some x => rw [hm] at hp; cases hp
    | none =>
      rw [hm] at hp
      cases hp
      exact ⟨Or.inl rfl, Or.inl rfl, Or.inr ⟨rfl, rfl, by simp⟩, Or.inl rfl⟩
  | SequenceNumber n =>
    simp only [processEntry] at hp
    cases hq : st.sequence_number with
    | some x => rw [hq] at hp; cases hp
    | none =>
      rw [hq] at hp
      cases hp
      exact ⟨Or.inl rfl, Or.inl rfl, Or.inl rfl, Or.inr ⟨rfl, rfl, by simp⟩⟩

theorem processEntry_sets_kind {TA Stage AD Addr : Type} [DecidableEq Stage]
    {ctx : Ctx TA Stage AD Addr} {config : GlobalConfig AD}
    {st st2 : BuildState TA Stage} {e : Entry TA Stage} {k : SVKind}
    (hp : processEntry ctx config st e = .ok st2) (he : e.svKind = some k) :
    kindSet k st2 = true := by
  rcases processEntry_ok_cases hp with ⟨p1, p2, p3, p4⟩
  cases e with
  | DisableStages stages => cases he
  | Sender name =>
    simp only [Entry.svKind] at he
    cases he
    rcases p1 with p1 | ⟨-, -, p1⟩
    · simp only [processEntry] at hp
      cases hs : st.sender with
      | some x => rw [hs] at hp; cases hp
      | none =>
        by_cases hc : ((config.accounts.lookup name).isSome
            || (config.genesis_accounts.lookup name).isSome) = true
        · rw [hs, if_pos hc] at hp
          cases hp
          simp [kindSet]
        · rw [hs, if_neg hc] at hp
          cases hp
    · simpa [kindSet] using p1
  | Arguments raw =>
    simp only [Entry.svKind] at he
    cases he
    rcases p2 with p2 | ⟨-, -, p2⟩
    · simp only [processEntry] at hp
      cases ha : st.args with
      | some x => rw [ha] at hp; cases hp
      | none =>
        cases hr : resolveArgs ctx config.accounts raw with
        | ok r =>
          rw [ha, hr] at hp
          cases hp
          simp [kindSet]
        | error e2 => rw [ha, hr] at hp; cases hp
    · simpa [kindSet] using p2
  | MaxGas n =>
    simp only [Entry.svKind] at he
    cases he
    rcases p3 with p3 | ⟨-, -, p3⟩
    · simp only [processEntry] at hp
      cases hm : st.max_gas with
      | some x => rw [hm] at hp; cases hp
      | none =>
        rw [hm] at hp
        cases hp
        simp [kindSet]
    · simpa [kindSet] using p3
  | SequenceNumber n =>
    simp only [Entry.svKind] at he
    cases he
    rcases p4 with p4 | ⟨-, -, p4⟩
    · simp only [processEntry] at hp
      cases hq : st.sequence_number with
      | some x => rw [hq] at hp; cases hp
      | none =>
        rw [hq] at hp
        cases hp
        simp [kindSet]
    · simpa [kindSet] using p4

theorem processEntry_already_set {TA Stage AD Addr : Type} [DecidableEq Stage]
    {ctx : Ctx TA Stage AD Addr} {config : GlobalConfig AD}
    {st : BuildState TA Stage} {e : Entry TA Stage} {k : SVKind}
    (hk : kindSet k st = true) (he : e.svKind = some k) :
    processEntry ctx config st e = .error (alreadySetErr k) := by
  cases e with
  | DisableStages stages => cases he
  | Sender name =>
    simp only [Entry.svKind] at he
    cases he
    simp only [kindSet] at hk
    cases hs : st.sender with
    | none => simp [hs] at hk
    | some x => simp [processEntry, hs, alreadySetErr]
  | Arguments raw =>
    simp only [Entry.svKind] at he
    cases he
    simp only [kindSet] at hk
    cases ha : st.args with
    | none => simp [ha] at hk
    | some x => simp [processEntry, ha, alreadySetErr]
  | MaxGas n =>
    simp only [Entry.svKind] at he
    cases he
    simp only [kindSet] at hk
    cases hm : st.max_gas with
    | none => simp [hm] at hk
    | some x => simp [processEntry, hm, alreadySetErr]
  | SequenceNumber n =>
    simp only [Entry.svKind] at he
    cases he
    simp only [kindSet] at hk
    cases hq : st.sequence_number with
    | none => simp [hq] at hk
    | some x => simp [processEntry, hq, alreadySetErr]

theorem runEntries_append {TA Stage AD Addr : Type} [DecidableEq Stage]
    (ctx : Ctx TA Stage AD Addr) (config : GlobalConfig AD)
    (l1 l2 : List (Entry TA Stage)) : ∀ st : BuildState TA Stage,
    runEntries ctx config st (l1 ++ l2) =
      match runEntries ctx config st l1 with
      | .ok st2 => runEntries ctx config st2 l2
      | .error e => .error e := by
  induction l1 with
  | nil => intro st; rfl
  | cons e t ih =>
    intro st
    simp only [List.cons_append, runEntries]
    cases hp : processEntry ctx config st e with
    | ok st2 => exact ih st2
    | error e2 => rfl

theorem runEntries_kind_mono {TA Stage AD Addr : Type} [DecidableEq Stage]
    {ctx : Ctx TA Stage AD Addr} {config : GlobalConfig AD} (k : SVKind)
    (l : List (Entry TA Stage)) : ∀ st st' : BuildState TA Stage,
    runEntries ctx config st l = .ok st' → kindSet k st = true →
    kindSet k st' = true := by
  induction l with
  | nil =>
    intro st st' h hk
    cases h
    exact hk
  | cons e t ih =>
    intro st st' h hk
    simp only [runEntries] at h
    cases hp : processEntry ctx config st e with
    | error e2 => rw [hp] at h; cases h
    | ok st2 =>
      rw [hp] at h
      refine ih st2 st' h ?_
      rcases processEntry_ok_cases hp with ⟨hA, hB, hC, hD⟩
      cases k with
      | sender =>
        simp only [kindSet] at hk ⊢
        rcases hA with h1 | ⟨-, -, h1⟩
        · rw [h1]; exact hk
        · exact h1
      | args =>
        simp only [kindSet] at hk ⊢
        rcases hB with h1 | ⟨-, -, h1⟩
        · rw [h1]; exact hk
        · exact h1
      | maxGas =>
        simp only [kindSet] at hk ⊢
        rcases hC with h1 | ⟨-, -, h1⟩
        · rw [h1]; exact hk
        · exact h1
      | seqNum =>
        simp only [kindSet] at hk ⊢
        rcases hD with h1 | ⟨-, -, h1⟩
        · rw [h1]; exact hk
        · exact h1

theorem runEntries_member_sets {TA Stage AD Addr : Type} [DecidableEq Stage]
    {ctx : Ctx TA Stage AD Addr} {config : GlobalConfig AD}
    (l : List (Entry TA Stage)) : ∀ st st' : BuildState TA Stage,
    runEntries ctx config st l = .ok st' →
    ∀ e ∈ l, ∀ k : SVKind, e.svKind = some k → kindSet k st' = true := by
  induction l with
  | nil =>
    intro st st' h e he
    simp at he
  | cons f t ih =>
    intro st st' h e he k hk
    simp only [runEntries] at h
    cases hp : processEntry ctx config st f with
    | error e2 => rw [hp] at h; cases h
    | ok st2 =>
      rw [hp] at h
      rcases List.mem_cons.mp he with he | he
      · subst he
        exact runEntries_kind_mono k t st2 st' h (processEntry_sets_kind hp hk)
      · exact ih st2 st' h e he k hk

/-- C2: if a prefix of the entry list was folded successfully and contains
an entry of one of the four single-valued kinds (`Sender`, `Arguments`,
`MaxGas`, `SequenceNumber`), then `Config::build` of the prefix followed by
any second entry of that same kind fails with that kind's "already set"
error at that second entry, regardless of the values the two entries
carry. -/
theorem c2_second_single_valued_fails {TA Stage AD Addr : Type}
    [DecidableEq Stage] (ctx : Ctx TA Stage AD Addr)
    (config : GlobalConfig AD) (pre post : List (Entry TA Stage))
    (e1 e2 : Entry TA Stage) (st : BuildState TA Stage) (k : SVKind)
    (hpre : runEntries ctx config initState pre = .ok st)
    (h1 : e1 ∈ pre) (hk1 : e1.svKind = some k) (hk2 : e2.svKind = some k) :
    Config.build ctx config (pre ++ e2 :: post)
      = .error (alreadySetErr k) := by
  have hset : kindSet k st = true :=
    runEntries_member_sets pre initState st hpre e1 h1 k hk1
  have herr : processEntry ctx config st e2 = .error (alreadySetErr k) :=
    processEntry_already_set hset hk2
  simp only [Config.build]
  rw [runEntries_append ctx config pre (e2 :: post) initState, hpre]
  simp only [runEntries]
  rw [herr]

theorem c2_second_single_valued_fails_witness :
    Config.build (Ctx.mk parseU64 parseU64 id id) (GlobalConfig.mk [] [])
      ([Entry.MaxGas 100] ++ Entry.MaxGas 200 :: [])
      = .error (alreadySetErr SVKind.maxGas) :=
  c2_second_single_valued_fails (Ctx.mk parseU64 parseU64 id id)
    (GlobalConfig.mk [] []) [Entry.MaxGas 100] [] (.MaxGas 100) (.MaxGas 200)
    { (initState : BuildState Nat Nat) with max_gas := some 100 }
    SVKind.maxGas (by decide) (by simp) rfl rfl

/-! ### C5: defaults when an option is never set -/

theorem runEntries_no_kind_preserved {TA Stage AD Addr : Type}
    [DecidableEq Stage] {ctx : Ctx TA Stage AD Addr}
    {config : GlobalConfig AD} (l : List (Entry TA Stage)) :
    ∀ st st' : BuildState TA Stage, runEntries ctx config st l = .ok st' →
    ((∀ e ∈ l, e.svKind ≠ some SVKind.sender) → st'.sender = st.sender)
    ∧ ((∀ e ∈ l, e.svKind ≠ some SVKind.args) → st'.args = st.args)
    ∧ ((∀ e ∈ l, e.svKind ≠ some SVKind.maxGas) → st'.max_gas = st.max_gas)
    ∧ ((∀ e ∈ l, e.svKind ≠ some SVKind.seqNum) →
        st'.sequence_number = st.sequence_number) := by
  induction l with
  | nil =>
    intro st st' h
    cases h
    exact ⟨fun _ => rfl, fun _ => rfl, fun _ => rfl, fun _ => rfl⟩
  | cons f t ih =>
    intro st st' h
    simp only [runEntries] at h
    cases hp : processEntry ctx config st f with
    | error e2 => rw [hp] at h; cases h
    | ok st2 =>
      rw [hp] at h
      rcases ih st2 st' h with ⟨i1, i2, i3, i4⟩
      rcases processEntry_ok_cases hp with ⟨p1, p2, p3, p4⟩
      refine ⟨fun hno => ?_, fun hno => ?_, fun hno => ?_, fun hno => ?_⟩
      · rw [i1 (fun e he => hno e (List.mem_cons_of_mem f he))]
        rcases p1 with p1 | ⟨pk, -, -⟩
        · exact p1
        · exact absurd pk (hno f (List.mem_cons_self f t))
      · rw [i2 (fun e he => hno e (List.mem_cons_of_mem f he))]
        rcases p2 with p2 | ⟨pk, -, -⟩
        · exact p2
        · exact absurd pk (hno f (List.mem_cons_self f t))
      · rw [i3 (fun e he => hno e (List.mem_cons_of_mem f he))]
        rcases p3 with p3 | ⟨pk, -, -⟩
        · exact p3
        · exact absurd pk (hno f (List.mem_cons_self f t))
      · rw [i4 (fun e he => hno e (List.mem_cons_of_mem f he))]
        rcases p4 with p4 | ⟨pk, -, -⟩
        · exact p4
        · exact absurd pk (hno f (List.mem_cons_self f t))

/-- C5: when `Config::build` succeeds, an absent `Sender` entry yields the
literal sender `"default"` (no registration check is performed for it), an
absent `Arguments` entry yields empty `args`, and absent `MaxGas` /
`SequenceNumber` entries leave `max_gas` / `sequence_number` unset. -/
theorem c5_defaults {TA Stage AD Addr : Type} [DecidableEq Stage]
    (ctx : Ctx TA Stage AD Addr) (config : GlobalConfig AD)
    (entries : List (Entry TA Stage)) (cfg : Config TA Stage)
    (h : Config.build ctx config entries = .ok cfg) :
    ((∀ name, Entry.Sender name ∉ entries) → cfg.sender = "default".data)
    ∧ ((∀ raw, Entry.Arguments raw ∉ entries) → cfg.args = [])
    ∧ ((∀ n, Entry.MaxGas n ∉ entries) → cfg.max_gas = none)
    ∧ ((∀ n, Entry.SequenceNumber n ∉ entries) →
        cfg.sequence_number = none) := by
  simp only [Config.build] at h
  cases hr : runEntries ctx config initState entries with
  | error e2 => rw [hr] at h; cases h
  | ok st =>
    rw [hr] at h
    cases h
    rcases runEntries_no_kind_preserved entries initState st hr
      with ⟨i1, i2, i3, i4⟩
    refine ⟨fun hno => ?_, fun hno => ?_, fun hno => ?_, fun hno => ?_⟩
    · have hs : st.sender = none := i1 (by
        intro e he hk
        cases e <;> simp only [Entry.svKind] at hk <;> try cases hk
        exact hno _ he)
      simp [finalize, hs]
    · have hs : st.args = none := i2 (by
        intro e he hk
        cases e <;> simp only [Entry.svKind] at hk <;> try cases hk
        exact hno _ he)
      simp [finalize, hs]
    · have hs : st.max_gas = none := i3 (by
        intro e he hk
        cases e <;> simp only [Entry.svKind] at hk <;> try cases hk
        exact hno _ he)
      simp [finalize, hs]
    · have hs : st.sequence_number = none := i4 (by
        intro e he hk
        cases e <;> simp only [Entry.svKind] at hk <;> try cases hk
        exact hno _ he)
      simp [finalize, hs]

theorem c5_defaults_witness :
    (Config.build (Ctx.mk parseU64 parseU64 id id) (GlobalConfig.mk [] [])
      [Entry.DisableStages [4]]
      = .ok ⟨[4], "default".data, [], none, none⟩)
    ∧ ("default".data, ([] : List Nat), (none : Option Nat),
        (none : Option Nat))
      = ((⟨[4], "default".data, [], none, none⟩ : Config Nat Nat).sender,
        (⟨[4], "default".data, [], none, none⟩ : Config Nat Nat).args,
        (⟨[4], "default".data, [], none, none⟩ : Config Nat Nat).max_gas,
        (⟨[4], "default".data, [], none, none⟩ : Config Nat Nat).sequence_number) := by
  have hb : Config.build (Ctx.mk parseU64 parseU64 id id)
      (GlobalConfig.mk [] []) [Entry.DisableStages [4]]
      = .ok ⟨[4], "default".data, [], none, none⟩ := by decide
  have h5 := c5_defaults (Ctx.mk parseU64 parseU64 id id)
    (GlobalConfig.mk [] []) [Entry.DisableStages [4]]
    ⟨[4], "default".data, [], none, none⟩ hb
  refine ⟨hb, ?_⟩
  have h1 := h5.1 (by intro name hmem; simp at hmem)
  have h2 := h5.2.1 (by intro raw hmem; simp at hmem)
  have h3 := h5.2.2.1 (by intro n hmem; simp at hmem)
  have h4 := h5.2.2.2 (by intro n hmem; simp at hmem)
  rw [h1, h2, h3, h4]

end Txn
